import Mathlib

set_option maxRecDepth 8000

/-!
Shallow embedding of the chunked text-to-speech reader in src/App.tsx and
src/types.ts.

The component is a single React function component.  We model its session
state (React useState hooks plus the mutable refs) as one record, and every
entry point — a user command handler, the settling of an asynchronous
fetch, or a natural end-of-playback notification — as one atomic step on
that record, exactly as the code runs on the single JS thread between
suspension points.  React specifics are flattened as follows:

* Each step performs the handler or continuation body and then the
  useEffect bodies that React runs as a consequence, in declaration order,
  inlined per entry point.  An effect body is executed only when one of its
  declared dependencies actually changed, matching React's dependency
  comparison (state setters called with an identical value do not
  re-render).
* playChunk is memoized with useCallback(deps = [chunks, selectedVoice])
  (App.tsx line 154).  Its closure therefore sees chunks, selectedVoice,
  activeChunkIndex and isPlaying as of the render at which one of the two
  dependencies last changed.  We keep that closure environment in the state
  (pcEnv) and refresh it exactly when chunks or selectedVoice changes.
  getAudioBufferForChunk, initAudioContext and stopAudio are re-created
  every render but are only reached through playChunk, so they see the same
  environment; the refs they use (audioCacheRef, sourceNodeRef) are always
  current, which we model by reading and writing the live state fields.
* An await in playChunk / getAudioBufferForChunk is a suspension point: the
  part before the first await runs synchronously at issue time (the cache
  lookup on line 81 in particular), and the rest runs when the fetch
  settles.  In-flight resolutions are kept in the state (pending for the
  active playChunk fetches, pendingPrefetch for the fire-and-forget
  prefetches of lines 143-146) and settle via explicit events.
* The Playback Driver is modeled by the list of currently sounding
  sources plus the sourceNodeRef; following the driver contract of the
  spec (section 4.3), a source stopped via stopAudio delivers no further
  onended notification, so the ended event acts only on sources that are
  still sounding.
-/

namespace Book

/-- Voice catalog entry, from src/types.ts. -/
structure VoiceOption where
  name : String
  id : String
  gender : String
deriving DecidableEq

/-- VOICE_OPTIONS from src/types.ts. -/
def VOICE_OPTIONS : List VoiceOption :=
  [ { name := "Puck", id := "Puck", gender := "Male" },
    { name := "Charon", id := "Charon", gender := "Male" },
    { name := "Kore", id := "Kore", gender := "Female" },
    { name := "Fenrir", id := "Fenrir", gender := "Male" },
    { name := "Zephyr", id := "Zephyr", gender := "Female" } ]

/-- A decoded audio buffer.  Synthesis followed by decode is deterministic
in the chunk text and the voice (spec section 6), so a buffer is modeled by
the pair that produced it. -/
structure Buffer where
  voice : String
  text : String
deriving DecidableEq

/-- Cache key: the code uses the string template voiceId-chunkIndex
(App.tsx line 80); the voice ids of the catalog contain no separator, so
the pair is a faithful model of the key. -/
abbrev CacheKey := String × Nat

/-- The audio cache (audioCacheRef, a JS Map).  Map.set is modeled by
prepending, so the most recent binding for a key shadows earlier ones,
and Map.has/Map.get by the first matching entry. -/
abbrev Cache := List (CacheKey × Buffer)

/-- Map.get / Map.has lookup. -/
def cacheGet (c : Cache) (k : CacheKey) : Option Buffer :=
  match c with
  | [] => none
  | (k1, b) :: rest => if k1 = k then some b else cacheGet rest k

/-- Map.set. -/
def cacheSet (c : Cache) (k : CacheKey) (b : Buffer) : Cache :=
  (k, b) :: c

/-- mode state: 'edit' | 'read' (App.tsx line 19). -/
inductive Mode where
  | edit
  | read
deriving DecidableEq

/-- The closure environment of the memoized playChunk callback: the values
of chunks, selectedVoice, activeChunkIndex and isPlaying seen by the
closure, i.e. those of the render at which the useCallback dependencies
[chunks, selectedVoice] last changed. -/
structure PlayChunkEnv where
  chunks : List String
  selectedVoice : String
  capturedActiveIndex : Nat
  capturedIsPlaying : Bool
deriving DecidableEq

/-- An in-flight resolution: a call of getAudioBufferForChunk (either the
awaited one of playChunk line 108 or the fire-and-forget prefetch of line
145) that has passed its synchronous cache lookup and not yet settled.
hit records the outcome of that lookup: some b means the cache hit b at
issue time (the resolution settles successfully with b and writes
nothing); none means a miss, so synthesis and decode are in flight and the
result is written to the cache when the resolution settles. -/
structure PendingFetch where
  id : Nat
  index : Nat
  env : PlayChunkEnv
  hit : Option Buffer
deriving DecidableEq

/-- A started AudioBufferSourceNode together with the values captured by
its onended handler (App.tsx lines 123-137): the closure's
activeChunkIndex and isPlaying, the playChunk parameter index, and the
closure's chunks list. -/
structure Source where
  id : Nat
  buffer : Buffer
  capturedActiveIndex : Nat
  capturedIsPlaying : Bool
  index : Nat
  envChunks : List String
deriving DecidableEq

/-- The whole session state: the useState hooks of App, the refs, the
memoized playChunk environment, the in-flight resolutions, and the set of
currently sounding sources.  nextId supplies fresh identities for sources
and fetches. -/
structure AppState where
  text : String
  selectedVoice : String
  isLoading : Bool
  isPlaying : Bool
  error : Option String
  mode : Mode
  chunks : List String
  activeChunkIndex : Nat
  cache : Cache
  sounding : List Source
  sourceRef : Option Nat
  pending : List PendingFetch
  pendingPrefetch : List PendingFetch
  pcEnv : PlayChunkEnv
  nextId : Nat
deriving DecidableEq

/-- Models the JS test !text.trim(): true exactly when the text contains
no non-whitespace character, i.e. trimming yields the empty string. -/
def isBlank (t : String) : Bool :=
  t.data.all Char.isWhitespace

/-- The sounding sources remaining after stopAudio: the node referenced by
sourceNodeRef, if any, is stopped (App.tsx lines 67-77). -/
def stoppedSounding (l : List Source) (r : Option Nat) : List Source :=
  match r with
  | none => l
  | some sid => l.filter (fun src => src.id != sid)

/-- stopAudio (App.tsx lines 67-77): stop and drop the node referenced by
sourceNodeRef.  When the ref is already null nothing changes (writing none
over none is the identity on that field). -/
def stopAudio (s : AppState) : AppState :=
  { s with
    sounding := stoppedSounding s.sounding s.sourceRef,
    sourceRef := none }

def findFetch (l : List PendingFetch) (fid : Nat) : Option PendingFetch :=
  match l with
  | [] => none
  | f :: rest => if f.id = fid then some f else findFetch rest fid

def removeFetch (l : List PendingFetch) (fid : Nat) : List PendingFetch :=
  match l with
  | [] => []
  | f :: rest => if f.id = fid then rest else f :: removeFetch rest fid

def findSource (l : List Source) (sid : Nat) : Option Source :=
  match l with
  | [] => none
  | x :: rest => if x.id = sid then some x else findSource rest sid

def removeSource (l : List Source) (sid : Nat) : List Source :=
  match l with
  | [] => []
  | x :: rest => if x.id = sid then rest else x :: removeSource rest sid

/-- The synchronous part of a playChunk(index) call (App.tsx lines
99-108): the bounds check against the closure's chunks, setError(null) and
setIsLoading(true), and the start of getAudioBufferForChunk up to its
first await — in particular the cache lookup of line 81, against the live
cache with the closure's selectedVoice.  A new pending fetch records the
rest.  When the bounds check fails the code only does setIsPlaying(false);
if that was a change, the playback-trigger effect (lines 157-168) re-runs
and stops the audio. -/
def playChunkIssue (s : AppState) (index : Nat) : AppState :=
  if index < s.pcEnv.chunks.length then
    { s with
      error := none,
      isLoading := true,
      pending := s.pending ++
        [{ id := s.nextId, index := index, env := s.pcEnv,
           hit := cacheGet s.cache (s.pcEnv.selectedVoice, index) }],
      nextId := s.nextId + 1 }
  else
    if s.isPlaying then stopAudio { s with isPlaying := false } else s

/-- The playback-trigger effect body (App.tsx lines 157-168), run when one
of its dependencies [activeChunkIndex, isPlaying, mode, chunks.length]
changed: play the current chunk, or stop. -/
def effectPlayback (s : AppState) : AppState :=
  if s.isPlaying = true ∧ s.mode = Mode.read ∧ 0 < s.chunks.length then
    playChunkIssue s s.activeChunkIndex
  else
    stopAudio s

/-- setText (the text editor onTextChange, App.tsx line 222) followed by
the effect on [text, mode] (lines 42-47): in edit mode the chunks are
dropped and the cache cleared.  setChunks always supplies a fresh array,
so playChunk is re-created; the playback-trigger effect re-runs only when
chunks.length changed. -/
def stepSetText (s : AppState) (str : String) : AppState :=
  if str = s.text then s
  else
    let s1 := { s with text := str }
    if s1.mode = Mode.edit then
      let s2 := { s1 with
        chunks := [], cache := [],
        pcEnv := { chunks := [], selectedVoice := s1.selectedVoice,
                   capturedActiveIndex := s1.activeChunkIndex,
                   capturedIsPlaying := s1.isPlaying } }
      if s1.chunks.length = 0 then s2 else effectPlayback s2
    else s1

/-- setSelectedVoice (ControlBar onVoiceChange, App.tsx line 237) followed
by the effect on [selectedVoice] (lines 50-54): stopAudio,
setIsPlaying(false), clear the cache.  playChunk is re-created at the
render where the voice changed, so its captured activeChunkIndex and
isPlaying are the values of that render — isPlaying before the effect sets
it to false.  The playback-trigger effect, if isPlaying changed, runs its
stop branch, which is already done. -/
def stepChangeVoice (s : AppState) (v : String) : AppState :=
  if v = s.selectedVoice then s
  else
    let s1 := { s with
      selectedVoice := v,
      pcEnv := { chunks := s.chunks, selectedVoice := v,
                 capturedActiveIndex := s.activeChunkIndex,
                 capturedIsPlaying := s.isPlaying } }
    { stopAudio s1 with isPlaying := false, cache := [] }

/-- handlePlayPause (App.tsx lines 170-189).  split is the result of the
external collaborator splitTextIntoChunks(text) (line 178), an input of
the step.  In edit mode with a non-empty split this is the startReading
transition; the playback-trigger effect then issues the fetch for index 0
through the freshly created playChunk. -/
def stepPlayPause (s : AppState) (split : List String) : AppState :=
  if isBlank s.text then
    { s with error := some "Please enter text to read." }
  else if s.mode = Mode.edit then
    if split = [] then s
    else
      let s1 := { s with
        chunks := split, activeChunkIndex := 0,
        mode := Mode.read, isPlaying := true,
        pcEnv := { chunks := split, selectedVoice := s.selectedVoice,
                   capturedActiveIndex := 0, capturedIsPlaying := true } }
      effectPlayback s1
  else
    effectPlayback { s with isPlaying := !s.isPlaying }

/-- handleNext (App.tsx lines 191-197) followed by the playback-trigger
effect (activeChunkIndex and possibly isPlaying changed). -/
def stepNext (s : AppState) : AppState :=
  if s.activeChunkIndex < s.chunks.length - 1 then
    effectPlayback
      { stopAudio s with
        activeChunkIndex := s.activeChunkIndex + 1, isPlaying := true }
  else s

/-- handlePrev (App.tsx lines 199-205) followed by the playback-trigger
effect. -/
def stepPrev (s : AppState) : AppState :=
  if 0 < s.activeChunkIndex then
    effectPlayback
      { stopAudio s with
        activeChunkIndex := s.activeChunkIndex - 1, isPlaying := true }
  else s

/-- handleModeChange (App.tsx lines 207-213) followed by the effect on
[text, mode] (which clears chunks and cache when the mode changed to edit)
and the playback-trigger effect (whose stop branch is already done). -/
def stepModeChange (s : AppState) (m : Mode) : AppState :=
  let s1 := { s with mode := m }
  if m = Mode.edit then
    let s2 := stopAudio { s1 with isPlaying := false }
    if s.mode = Mode.read then
      { s2 with
        chunks := [], cache := [],
        pcEnv := { chunks := [], selectedVoice := s2.selectedVoice,
                   capturedActiveIndex := s2.activeChunkIndex,
                   capturedIsPlaying := false } }
    else s2
  else
    if s.mode = Mode.edit then effectPlayback s1 else s1

/-- The buffer a pending resolution settles with: the cache hit found at
issue time, or the buffer synthesized and decoded from the chunk text and
the closure's voice (App.tsx lines 85-92). -/
def settleBuffer (f : PendingFetch) : Buffer :=
  match f.hit with
  | some b => b
  | none => { voice := f.env.selectedVoice, text := f.env.chunks.getD f.index "" }

/-- The cache write performed when a resolution settles: on the miss path
getAudioBufferForChunk stores the result under its key (App.tsx line 94),
unconditionally and against the live cache; a hit returned before the
write. -/
def settleCache (c : Cache) (f : PendingFetch) : Cache :=
  match f.hit with
  | some _ => c
  | none => cacheSet c (f.env.selectedVoice, f.index) (settleBuffer f)

/-- The onended handler installed on a new source captures the playChunk
closure values (App.tsx lines 123-137). -/
def mkSource (sid : Nat) (b : Buffer) (f : PendingFetch) : Source :=
  { id := sid, buffer := b,
    capturedActiveIndex := f.env.capturedActiveIndex,
    capturedIsPlaying := f.env.capturedIsPlaying,
    index := f.index,
    envChunks := f.env.chunks }

/-- The playChunk continuation after a successful await (App.tsx lines
110-141): the commented-out staleness check (lines 110-114) does nothing;
then stopAudio, create and start the new source, set sourceNodeRef, and
setIsLoading(false).  No effect dependency changed (isLoading is not a
dependency), so no effect runs. -/
def startSource (s : AppState) (f : PendingFetch) : AppState :=
  { stopAudio s with
    sounding := (stopAudio s).sounding ++ [mkSource s.nextId (settleBuffer f) f],
    sourceRef := some s.nextId,
    nextId := s.nextId + 1,
    isLoading := false }

/-- The fire-and-forget prefetch of the next chunk (App.tsx lines
143-146): issue getAudioBufferForChunk(index+1, chunks) through the same
closure, recording its synchronous cache lookup; errors are swallowed by
the .catch. -/
def issuePrefetch (s : AppState) (f : PendingFetch) : AppState :=
  if f.index + 1 < f.env.chunks.length then
    { s with
      pendingPrefetch := s.pendingPrefetch ++
        [{ id := s.nextId, index := f.index + 1, env := f.env,
           hit := cacheGet s.cache (f.env.selectedVoice, f.index + 1) }],
      nextId := s.nextId + 1 }
  else s

/-- A pending playChunk fetch settles successfully. -/
def stepFetchOk (s : AppState) (fid : Nat) : AppState :=
  match findFetch s.pending fid with
  | none => s
  | some f =>
    issuePrefetch
      (startSource
        { s with
          pending := removeFetch s.pending fid,
          cache := settleCache s.cache f } f) f

/-- A pending playChunk fetch settles with an error (synthesis or decode
failure; only a miss has work in flight that can fail).  The catch block
(App.tsx lines 148-153) sets the error message, isLoading false and
isPlaying false; if isPlaying changed, the playback-trigger effect re-runs
and stops the audio. -/
def stepFetchErr (s : AppState) (fid : Nat) (msg : String) : AppState :=
  match findFetch s.pending fid with
  | none => s
  | some f =>
    if f.hit = none then
      let s1 := { s with
        pending := removeFetch s.pending fid,
        error := some ("Failed to load audio. " ++ msg),
        isLoading := false }
      if s1.isPlaying then stopAudio { s1 with isPlaying := false } else s1
    else s

/-- A pending prefetch settles successfully: on the miss path the result
is written to the cache (App.tsx line 94); nothing else happens. -/
def stepPrefetchOk (s : AppState) (fid : Nat) : AppState :=
  match findFetch s.pendingPrefetch fid with
  | none => s
  | some p =>
    let s1 := { s with pendingPrefetch := removeFetch s.pendingPrefetch fid }
    match p.hit with
    | some _ => s1
    | none =>
      { s1 with
        cache := cacheSet s1.cache (p.env.selectedVoice, p.index) (settleBuffer p) }

/-- A pending prefetch settles with an error: the .catch of line 145 logs
and swallows it; the state is untouched. -/
def stepPrefetchErr (s : AppState) (fid : Nat) : AppState :=
  match findFetch s.pendingPrefetch fid with
  | none => s
  | some p =>
    if p.hit = none then
      { s with pendingPrefetch := removeFetch s.pendingPrefetch fid }
    else s

/-- A source reaches its natural end while still sounding (a stopped
source delivers no notification, per the driver contract).  The onended
handler (App.tsx lines 123-137) acts only when the closure's captured
activeChunkIndex equals the source's index and the captured isPlaying is
true; the functional setActiveChunkIndex update then reads the current
index and either advances or, at the last chunk of the closure's list,
sets isPlaying false.  The playback-trigger effect re-runs when
activeChunkIndex or isPlaying changed. -/
def stepEnded (s : AppState) (sid : Nat) : AppState :=
  match findSource s.sounding sid with
  | none => s
  | some src =>
    let s1 := { s with sounding := removeSource s.sounding sid }
    if src.capturedActiveIndex = src.index ∧ src.capturedIsPlaying = true then
      if s1.activeChunkIndex + 1 < src.envChunks.length then
        effectPlayback { s1 with activeChunkIndex := s1.activeChunkIndex + 1 }
      else
        if s1.isPlaying then effectPlayback { s1 with isPlaying := false } else s1
    else s1

/-- The events the component reacts to: user commands, settlings of
in-flight resolutions, and natural end-of-playback notifications.  Settle
and ended events name their fetch or source by id and are no-ops when no
such in-flight object exists, so every event list is a valid schedule. -/
inductive Event where
  | setText (str : String)
  | changeVoice (v : String)
  | playPause (split : List String)
  | next
  | prev
  | modeChange (m : Mode)
  | fetchOk (fid : Nat)
  | fetchErr (fid : Nat) (msg : String)
  | prefetchOk (fid : Nat)
  | prefetchErr (fid : Nat)
  | ended (sid : Nat)
deriving DecidableEq

def step (s : AppState) (e : Event) : AppState :=
  match e with
  | Event.setText str => stepSetText s str
  | Event.changeVoice v => stepChangeVoice s v
  | Event.playPause split => stepPlayPause s split
  | Event.next => stepNext s
  | Event.prev => stepPrev s
  | Event.modeChange m => stepModeChange s m
  | Event.fetchOk fid => stepFetchOk s fid
  | Event.fetchErr fid msg => stepFetchErr s fid msg
  | Event.prefetchOk fid => stepPrefetchOk s fid
  | Event.prefetchErr fid => stepPrefetchErr s fid
  | Event.ended sid => stepEnded s sid

def run (s : AppState) (evs : List Event) : AppState :=
  evs.foldl step s

/-- The state after mounting: the initial useState values (App.tsx lines
12-21), empty refs, and the mount run of the effects (which clear the
already empty chunks and cache and stop the absent audio). -/
def initState : AppState :=
  { text := "",
    selectedVoice := "Puck",
    isLoading := false,
    isPlaying := false,
    error := none,
    mode := Mode.edit,
    chunks := [],
    activeChunkIndex := 0,
    cache := [],
    sounding := [],
    sourceRef := none,
    pending := [],
    pendingPrefetch := [],
    pcEnv := { chunks := [], selectedVoice := "Puck",
               capturedActiveIndex := 0, capturedIsPlaying := false },
    nextId := 0 }

/-- Sequential state-passing translation of getAudioBufferForChunk
(App.tsx lines 79-96), used to settle the cache-idempotence claim about
two completed resolutions in sequence.  The result triple is the returned
buffer, the cache afterwards, and the number of synthesis+decode
collaborator invocations the call performed (0 on a hit, 1 on a miss). -/
def getAudioBufferSeq (voice : String) (index : Nat) (textChunks : List String)
    (c : Cache) : Buffer × Cache × Nat :=
  match cacheGet c (voice, index) with
  | some b => (b, c, 0)
  | none =>
    let buffer : Buffer := { voice := voice, text := textChunks.getD index "" }
    (buffer, cacheSet c (voice, index) buffer, 1)

/-- A sequence of completed resolutions, threaded through the cache. -/
def resolveAll (calls : List (String × Nat × List String)) (c : Cache) : Cache :=
  match calls with
  | [] => c
  | q :: rest => resolveAll rest (getAudioBufferSeq q.1 q.2.1 q.2.2 c).2.1

end Book

namespace Book

/-! Playback Driver invariant: the sounding sources are empty or exactly
the node referenced by sourceNodeRef.  Every start site (App.tsx line 140)
is preceded by stopAudio (line 116) on the same synchronous run, so the
invariant is preserved by every step. -/

/-- Either nothing is sounding, or exactly the referenced node sounds. -/
def SoundInv (s : AppState) : Prop :=
  s.sounding = [] ∨ ∃ src, s.sounding = [src] ∧ s.sourceRef = some src.id

theorem stoppedSounding_nil (r : Option Nat) : stoppedSounding [] r = [] := by
  cases r <;> rfl

theorem stoppedSounding_self (src : Source) :
    stoppedSounding [src] (some src.id) = [] := by
  simp [stoppedSounding]

theorem removeSource_single (src : Source) (sid : Nat) :
    removeSource [src] sid = if src.id = sid then [] else [src] := by
  unfold removeSource
  split <;> rfl

theorem stopAudio_sounding_nil {s : AppState} (h : SoundInv s) :
    (stopAudio s).sounding = [] := by
  rcases h with h | ⟨src, hs, hr⟩
  · show stoppedSounding s.sounding s.sourceRef = []
    rw [h]
    exact stoppedSounding_nil _
  · show stoppedSounding s.sounding s.sourceRef = []
    rw [hs, hr]
    exact stoppedSounding_self src

theorem soundInv_stopAudio {s : AppState} (h : SoundInv s) :
    SoundInv (stopAudio s) :=
  Or.inl (stopAudio_sounding_nil h)

theorem soundInv_playChunkIssue {s : AppState} (i : Nat) (h : SoundInv s) :
    SoundInv (playChunkIssue s i) := by
  unfold playChunkIssue
  split
  · exact h
  · split
    · exact soundInv_stopAudio h
    · exact h

theorem soundInv_effectPlayback {s : AppState} (h : SoundInv s) :
    SoundInv (effectPlayback s) := by
  unfold effectPlayback
  split
  · exact soundInv_playChunkIssue _ h
  · exact soundInv_stopAudio h

theorem soundInv_startSource {s : AppState} (f : PendingFetch) (h : SoundInv s) :
    SoundInv (startSource s f) := by
  refine Or.inr ⟨mkSource s.nextId (settleBuffer f) f, ?_, rfl⟩
  show (stopAudio s).sounding ++ [mkSource s.nextId (settleBuffer f) f] = _
  rw [stopAudio_sounding_nil h]
  rfl

theorem soundInv_issuePrefetch {s : AppState} (f : PendingFetch) (h : SoundInv s) :
    SoundInv (issuePrefetch s f) := by
  unfold issuePrefetch
  split
  · exact h
  · exact h

theorem soundInv_removeSource {s : AppState} (sid : Nat) (h : SoundInv s) :
    SoundInv { s with sounding := removeSource s.sounding sid } := by
  rcases h with h | ⟨src, hs, hr⟩
  · left
    show removeSource s.sounding sid = []
    rw [h]
    rfl
  · show removeSource s.sounding sid = [] ∨ _
    rw [hs, removeSource_single]
    split
    · exact Or.inl rfl
    · exact Or.inr ⟨src, rfl, hr⟩

theorem soundInv_step {s : AppState} (e : Event) (h : SoundInv s) :
    SoundInv (step s e) := by
  cases e with
  | setText str =>
    show SoundInv (stepSetText s str)
    simp only [stepSetText]
    split
    · exact h
    · split
      · split
        · exact h
        · exact soundInv_effectPlayback h
      · exact h
  | changeVoice v =>
    show SoundInv (stepChangeVoice s v)
    simp only [stepChangeVoice]
    split
    · exact h
    · exact soundInv_stopAudio h
  | playPause split =>
    show SoundInv (stepPlayPause s split)
    simp only [stepPlayPause]
    split
    · exact h
    · split
      · split
        · exact h
        · exact soundInv_effectPlayback h
      · exact soundInv_effectPlayback h
  | next =>
    show SoundInv (stepNext s)
    simp only [stepNext]
    split
    · exact soundInv_effectPlayback (soundInv_stopAudio h)
    · exact h
  | prev =>
    show SoundInv (stepPrev s)
    simp only [stepPrev]
    split
    · exact soundInv_effectPlayback (soundInv_stopAudio h)
    · exact h
  | modeChange m =>
    show SoundInv (stepModeChange s m)
    simp only [stepModeChange]
    split
    · split
      · exact soundInv_stopAudio h
      · exact soundInv_stopAudio h
    · split
      · exact soundInv_effectPlayback h
      · exact h
  | fetchOk fid =>
    show SoundInv (stepFetchOk s fid)
    simp only [stepFetchOk]
    cases hf : findFetch s.pending fid with
    | none => exact h
    | some f => exact soundInv_issuePrefetch f (soundInv_startSource f h)
  | fetchErr fid msg =>
    show SoundInv (stepFetchErr s fid msg)
    simp only [stepFetchErr]
    cases hf : findFetch s.pending fid with
    | none => exact h
    | some f =>
      dsimp only
      split
      · split
        · exact soundInv_stopAudio h
        · exact h
      · exact h
  | prefetchOk fid =>
    show SoundInv (stepPrefetchOk s fid)
    simp only [stepPrefetchOk]
    cases hf : findFetch s.pendingPrefetch fid with
    | none => exact h
    | some p =>
      dsimp only
      split
      · exact h
      · exact h
  | prefetchErr fid =>
    show SoundInv (stepPrefetchErr s fid)
    simp only [stepPrefetchErr]
    cases hf : findFetch s.pendingPrefetch fid with
    | none => exact h
    | some p =>
      dsimp only
      split
      · exact h
      · exact h
  | ended sid =>
    show SoundInv (stepEnded s sid)
    simp only [stepEnded]
    cases hf : findSource s.sounding sid with
    | none => exact h
    | some src =>
      dsimp only
      split
      · split
        · exact soundInv_effectPlayback (soundInv_removeSource sid h)
        · split
          · exact soundInv_effectPlayback (soundInv_removeSource sid h)
          · exact soundInv_removeSource sid h
      · exact soundInv_removeSource sid h

theorem soundInv_run (evs : List Event) :
    ∀ s : AppState, SoundInv s → SoundInv (run s evs) := by
  induction evs with
  | nil => exact fun s h => h
  | cons e rest ih => exact fun s h => ih (step s e) (soundInv_step e h)

/-- C3: starting a new source always first stops the one referenced by
sourceNodeRef, which by the invariant is the only sounding one, so after
any event sequence from the initial state at most one source is sounding
at any instant. -/
theorem c3_at_most_one_sounding_source (evs : List Event) :
    (run Book.initState evs).sounding.length ≤ 1 := by
  have h := soundInv_run evs Book.initState (Or.inl rfl)
  rcases h with h | ⟨src, hs, _⟩
  · rw [h]
    exact Nat.zero_le 1
  · rw [hs]
    exact Nat.le_refl 1

end Book

namespace Book

/-! Field-preservation facts: issuing a fetch or running the
playback-trigger effect never moves the active index, the chunk list or
the cache. -/

theorem playChunkIssue_activeChunkIndex (s : AppState) (i : Nat) :
    (playChunkIssue s i).activeChunkIndex = s.activeChunkIndex := by
  unfold playChunkIssue
  split
  · rfl
  · split <;> rfl

theorem playChunkIssue_chunks (s : AppState) (i : Nat) :
    (playChunkIssue s i).chunks = s.chunks := by
  unfold playChunkIssue
  split
  · rfl
  · split <;> rfl

theorem playChunkIssue_cache (s : AppState) (i : Nat) :
    (playChunkIssue s i).cache = s.cache := by
  unfold playChunkIssue
  split
  · rfl
  · split <;> rfl

theorem effectPlayback_activeChunkIndex (s : AppState) :
    (effectPlayback s).activeChunkIndex = s.activeChunkIndex := by
  unfold effectPlayback
  split
  · exact playChunkIssue_activeChunkIndex s _
  · rfl

theorem effectPlayback_chunks (s : AppState) :
    (effectPlayback s).chunks = s.chunks := by
  unfold effectPlayback
  split
  · exact playChunkIssue_chunks s _
  · rfl

theorem effectPlayback_cache (s : AppState) :
    (effectPlayback s).cache = s.cache := by
  unfold effectPlayback
  split
  · exact playChunkIssue_cache s _
  · rfl

theorem stepNext_bounds {s : AppState} (h : s.activeChunkIndex < s.chunks.length) :
    (stepNext s).activeChunkIndex < (stepNext s).chunks.length ∧
    (stepNext s).chunks = s.chunks := by
  unfold stepNext
  split
  · next hlt =>
    constructor
    · rw [effectPlayback_activeChunkIndex, effectPlayback_chunks]
      show s.activeChunkIndex + 1 < s.chunks.length
      omega
    · rw [effectPlayback_chunks]
      rfl
  · exact ⟨h, rfl⟩

theorem stepPrev_bounds {s : AppState} (h : s.activeChunkIndex < s.chunks.length) :
    (stepPrev s).activeChunkIndex < (stepPrev s).chunks.length ∧
    (stepPrev s).chunks = s.chunks := by
  unfold stepPrev
  split
  · next hlt =>
    constructor
    · rw [effectPlayback_activeChunkIndex, effectPlayback_chunks]
      show s.activeChunkIndex - 1 < s.chunks.length
      omega
    · rw [effectPlayback_chunks]
      rfl
  · exact ⟨h, rfl⟩

theorem runNP_bounds (evs : List Event) :
    ∀ s : AppState, (∀ e ∈ evs, e = Event.next ∨ e = Event.prev) →
      s.activeChunkIndex < s.chunks.length →
      (run s evs).activeChunkIndex < (run s evs).chunks.length ∧
      (run s evs).chunks = s.chunks := by
  induction evs with
  | nil => exact fun s _ h => ⟨h, rfl⟩
  | cons e rest ih =>
    intro s hevs h
    have he := hevs e (List.mem_cons_self e rest)
    have hrest : ∀ x ∈ rest, x = Event.next ∨ x = Event.prev :=
      fun x hx => hevs x (List.mem_cons_of_mem e hx)
    rcases he with he | he <;> subst he
    · obtain ⟨h1, h2⟩ := stepNext_bounds h
      obtain ⟨h3, h4⟩ := ih (stepNext s) hrest h1
      exact ⟨h3, h4.trans h2⟩
    · obtain ⟨h1, h2⟩ := stepPrev_bounds h
      obtain ⟨h3, h4⟩ := ih (stepPrev s) hrest h1
      exact ⟨h3, h4.trans h2⟩

/-- C4: from any state whose active index is a valid index into chunks,
every sequence of next/prev commands keeps activeChunkIndex within
[0, chunks.length - 1] (indices are naturals, so the lower bound is
intrinsic) and leaves the chunk list untouched; moreover handleNext at
the last chunk and handlePrev at index 0 leave the state entirely
unchanged — no-ops, not errors. -/
theorem c4_index_bounds (s : AppState) (evs : List Event)
    (hevs : ∀ e ∈ evs, e = Event.next ∨ e = Event.prev)
    (h : s.activeChunkIndex < s.chunks.length) :
    ((run s evs).activeChunkIndex < (run s evs).chunks.length ∧
      (run s evs).chunks = s.chunks) ∧
    (s.activeChunkIndex = s.chunks.length - 1 → step s Event.next = s) ∧
    (s.activeChunkIndex = 0 → step s Event.prev = s) := by
  refine ⟨runNP_bounds evs s hevs h, ?_, ?_⟩
  · intro hlast
    show stepNext s = s
    unfold stepNext
    rw [if_neg (by omega)]
  · intro h0
    show stepPrev s = s
    unfold stepPrev
    rw [if_neg (by omega)]

/-- A Reading-mode state with a single chunk, as produced right after a
startReading of a one-chunk text, used to instantiate universally
quantified theorems at a concrete input. -/
def sampleReadOne : AppState :=
  { initState with
    text := "a", mode := Mode.read, chunks := ["a"], isPlaying := true,
    pcEnv := { chunks := ["a"], selectedVoice := "Puck",
               capturedActiveIndex := 0, capturedIsPlaying := true } }

/-- Witness: c4_index_bounds applied to a concrete one-chunk state and a
concrete command list, with both hypotheses discharged by computation. -/
theorem c4_index_bounds_witness :
    ((run sampleReadOne [Event.next, Event.prev, Event.next]).activeChunkIndex <
        (run sampleReadOne [Event.next, Event.prev, Event.next]).chunks.length ∧
      (run sampleReadOne [Event.next, Event.prev, Event.next]).chunks =
        sampleReadOne.chunks) ∧
    (sampleReadOne.activeChunkIndex = sampleReadOne.chunks.length - 1 →
      step sampleReadOne Event.next = sampleReadOne) ∧
    (sampleReadOne.activeChunkIndex = 0 →
      step sampleReadOne Event.prev = sampleReadOne) :=
  c4_index_bounds sampleReadOne [Event.next, Event.prev, Event.next]
    (by decide) (by decide)

end Book

namespace Book

/-- The state after typing the non-blank text Hello in edit mode. -/
def helloState : AppState := stepSetText initState "Hello"

/-- Trace for claim C1: startReading with three chunks under voice Puck
issues fetch 0 for context (Puck, 0); before it settles the user changes
the voice to Kore and presses next (so the current context is (Kore, 1)
and a fresh fetch is in flight); then the stale fetch 0 settles. -/
def staleVoiceTrace : List Event :=
  [Event.setText "a b c", Event.playPause ["a", "b", "c"],
   Event.changeVoice "Kore", Event.next, Event.fetchOk 0]

/-- C1, refuted on the code: the playChunk continuation resumed by a
settling fetch has no staleness guard — the re-check of App.tsx lines
110-114 is an empty comment block — so the late result for the superseded
context (Puck, 0) stops the current audio and starts sounding the Puck
buffer of chunk 0 even though the current voice is Kore and the current
active index is 1.  The claimed guard (act only when the captured voice
and index still match and playing is true) does not exist in the code. -/
theorem c1_stale_settle_starts_playback :
    (run initState staleVoiceTrace).selectedVoice = "Kore" ∧
    (run initState staleVoiceTrace).activeChunkIndex = 1 ∧
    (run initState staleVoiceTrace).isPlaying = true ∧
    (run initState staleVoiceTrace).sounding.map (fun x => x.buffer) =
      [{ voice := "Puck", text := "a" }] :=
  ⟨rfl, rfl, rfl, rfl⟩

/-- Trace for claim C2: startReading on text splitting as [a, b] issues
fetch 0 for (Puck, 0); the user returns to edit mode (which clears the
cache) and edits the text (which clears it again); then the old fetch
settles, writing its buffer into the cleared cache; finally the user
starts reading the new text. -/
def staleCacheTrace : List Event :=
  [Event.setText "a b", Event.playPause ["a", "b"], Event.modeChange Mode.edit,
   Event.setText "x y", Event.fetchOk 0, Event.playPause ["x", "y"]]

/-- C2 counterexample: startReading does not empty the cache.  After the
final startReading the mode is Reading with chunks [x, y], yet the cache
still holds the entry (Puck, 0) written by the stale settle — audio of the
old chunk a — and the first resolution issued for the new state is served
from exactly that entry (its issue-time lookup hit), contradicting the
claim that the cache is emptied before any resolution for the new state
is issued. -/
theorem c2_startReading_keeps_stale_cache :
    (run initState staleCacheTrace).mode = Mode.read ∧
    (run initState staleCacheTrace).chunks = ["x", "y"] ∧
    (run initState staleCacheTrace).cache =
      [(("Puck", 0), { voice := "Puck", text := "a" })] ∧
    (run initState staleCacheTrace).pending.map (fun f => f.hit) =
      [some { voice := "Puck", text := "a" }] :=
  ⟨rfl, rfl, rfl, rfl⟩

/-- C2 as amended: a voice change empties the entire cache (and issues no
resolution itself), startReading resets the active index to 0, and the
cache is emptied on the transition back to Editing mode and on every text
change while Editing — but startReading itself performs no clear, so (per
the counterexample) an old in-flight resolution settling after those
clears can leave an entry that the next Reading session serves. -/
theorem c2_invalidation_amended (s : AppState) (v str : String)
    (split : List String) :
    (v ≠ s.selectedVoice →
      (stepChangeVoice s v).cache = [] ∧
      (stepChangeVoice s v).pending = s.pending) ∧
    (isBlank s.text = false → s.mode = Mode.edit → split ≠ [] →
      (stepPlayPause s split).activeChunkIndex = 0) ∧
    (s.mode = Mode.read → (stepModeChange s Mode.edit).cache = []) ∧
    (s.mode = Mode.edit → str ≠ s.text → (stepSetText s str).cache = []) := by
  refine ⟨?_, ?_, ?_, ?_⟩
  · intro hv
    unfold stepChangeVoice
    rw [if_neg hv]
    exact ⟨rfl, rfl⟩
  · intro hblank hmode hsplit
    unfold stepPlayPause
    rw [hblank, if_neg Bool.false_ne_true, if_pos hmode, if_neg hsplit]
    dsimp only
    rw [effectPlayback_activeChunkIndex]
  · intro hmode
    unfold stepModeChange
    dsimp only
    rw [if_pos rfl, if_pos hmode]
  · intro hmode hstr
    unfold stepSetText
    rw [if_neg hstr]
    dsimp only
    rw [if_pos hmode]
    split
    · rfl
    · rw [effectPlayback_cache]

/-- Witness: c2_invalidation_amended applied at two concrete states — the
edit-mode helloState for the voice-change, startReading and text-change
parts, and the Reading-mode sampleReadOne for the exit-to-edit part. -/
theorem c2_invalidation_amended_witness :
    (stepChangeVoice helloState "Kore").cache = [] ∧
    (stepChangeVoice helloState "Kore").pending = helloState.pending ∧
    (stepPlayPause helloState ["x"]).activeChunkIndex = 0 ∧
    (stepModeChange sampleReadOne Mode.edit).cache = [] ∧
    (stepSetText helloState "bye").cache = [] := by
  have h1 := c2_invalidation_amended helloState "Kore" "bye" ["x"]
  have h2 := c2_invalidation_amended sampleReadOne "Kore" "bye" ["x"]
  exact ⟨(h1.1 (by decide)).1, (h1.1 (by decide)).2,
    h1.2.1 (by decide) (by decide) (by decide),
    h2.2.2.1 (by decide),
    h1.2.2.2 (by decide) (by decide)⟩

/-- Trace for claim C5: startReading with three chunks; fetch 0 settles
(source 1 sounds chunk 0, prefetch 2 issued); source 1 ends naturally and
the advance to index 1 succeeds (the captured index 0 matches); fetch 3
for chunk 1 settles (source 4 sounds chunk 1); source 4 ends naturally. -/
def autoAdvanceTrace : List Event :=
  [Event.setText "a b c", Event.playPause ["a", "b", "c"],
   Event.fetchOk 0, Event.ended 1, Event.fetchOk 3, Event.ended 4]

/-- C5, refuted on the code: the onended comparison (App.tsx line 127)
uses the activeChunkIndex and isPlaying captured when playChunk was last
re-created — index 0 from the startReading render, since neither chunks
nor selectedVoice changed afterwards.  The natural end of chunk 0 matches
and advances to index 1, but the natural end of chunk 1 compares the
captured 0 against source index 1 and does nothing: with playing still
true and 2 < 3 chunks the active index stays at 1 instead of advancing to
2, and playback stalls with nothing sounding. -/
theorem c5_auto_advance_stalls :
    (run initState (List.take 4 autoAdvanceTrace)).activeChunkIndex = 1 ∧
    (run initState autoAdvanceTrace).activeChunkIndex = 1 ∧
    (run initState autoAdvanceTrace).isPlaying = true ∧
    (run initState autoAdvanceTrace).sounding = [] ∧
    (run initState autoAdvanceTrace).chunks.length = 3 :=
  ⟨rfl, rfl, rfl, rfl, rfl⟩

/-- C9 counterexample: handlePlayPause in edit mode on the non-blank text
Hello with an external split that produced zero chunks returns without
touching anything — in particular no user-visible message is shown: the
error field stays none, contradicting the claimed message. -/
theorem c9_empty_split_no_message :
    stepPlayPause helloState [] = helloState ∧
    helloState.error = none ∧
    helloState.mode = Mode.edit ∧
    helloState.text = "Hello" :=
  ⟨rfl, rfl, rfl, rfl⟩

/-- C9 as amended: startReading on non-blank text whose external split
produces zero chunks is a silent no-op — the state, including mode,
chunks, activeChunkIndex, playing and the error message, is entirely
unchanged and no message is shown (the model is total, so no crash). -/
theorem c9_empty_split_noop (s : AppState) (h1 : s.mode = Mode.edit)
    (h2 : isBlank s.text = false) :
    stepPlayPause s [] = s := by
  unfold stepPlayPause
  rw [h2, if_neg Bool.false_ne_true, if_pos h1, if_pos rfl]

/-- Witness: c9_empty_split_noop applied to the concrete helloState. -/
theorem c9_empty_split_noop_witness :
    stepPlayPause helloState [] = helloState :=
  c9_empty_split_noop helloState rfl rfl

/-- C10: handlePlayPause with blank (empty or whitespace-only) text sets
the error message Please enter text to read. and returns; every other
field — mode, chunks, activeChunkIndex, isPlaying, the cache, the pending
fetches — is unchanged, and Reading mode is not entered. -/
theorem c10_blank_text_guard (s : AppState) (split : List String)
    (h : isBlank s.text = true) :
    stepPlayPause s split = { s with error := some "Please enter text to read." } := by
  unfold stepPlayPause
  rw [if_pos h]

/-- Witness: c10_blank_text_guard applied to the initial state, whose
text is empty. -/
theorem c10_blank_text_guard_witness :
    stepPlayPause initState ["x"] =
      { initState with error := some "Please enter text to read." } :=
  c10_blank_text_guard initState ["x"] rfl

end Book

namespace Book

/-- C7: when a pending resolution of the active chunk settles with a
synthesis or decode failure, the catch block of playChunk puts the engine
in the Error state: the error message is set, loading and playing become
false, the settled fetch is removed, and no new fetch is issued in its
place (the pending list only shrinks — no automatic retry); mode and
active index are untouched. -/
theorem c7_error_propagation (s : AppState) (fid : Nat) (msg : String)
    (f : PendingFetch) (hf : findFetch s.pending fid = some f)
    (hmiss : f.hit = none) :
    (stepFetchErr s fid msg).error = some ("Failed to load audio. " ++ msg) ∧
    (stepFetchErr s fid msg).isLoading = false ∧
    (stepFetchErr s fid msg).isPlaying = false ∧
    (stepFetchErr s fid msg).pending = removeFetch s.pending fid ∧
    (stepFetchErr s fid msg).mode = s.mode ∧
    (stepFetchErr s fid msg).activeChunkIndex = s.activeChunkIndex := by
  unfold stepFetchErr
  rw [hf]
  dsimp only
  rw [if_pos hmiss]
  split
  · exact ⟨rfl, rfl, rfl, rfl, rfl, rfl⟩
  · next hplay =>
    refine ⟨rfl, rfl, ?_, rfl, rfl, rfl⟩
    simpa using hplay

/-- The state right after startReading on the three-chunk text, with the
fetch for chunk 0 still in flight. -/
def sampleLoading : AppState :=
  run initState [Event.setText "a b c", Event.playPause ["a", "b", "c"]]

/-- Witness: c7_error_propagation applied to the concrete loading state
and its actual pending fetch. -/
theorem c7_error_propagation_witness :
    (stepFetchErr sampleLoading 0 "network").error =
      some ("Failed to load audio. " ++ "network") ∧
    (stepFetchErr sampleLoading 0 "network").isLoading = false ∧
    (stepFetchErr sampleLoading 0 "network").isPlaying = false ∧
    (stepFetchErr sampleLoading 0 "network").pending =
      removeFetch sampleLoading.pending 0 ∧
    (stepFetchErr sampleLoading 0 "network").mode = sampleLoading.mode ∧
    (stepFetchErr sampleLoading 0 "network").activeChunkIndex =
      sampleLoading.activeChunkIndex :=
  c7_error_propagation sampleLoading 0 "network"
    { id := 0, index := 0,
      env := { chunks := ["a", "b", "c"], selectedVoice := "Puck",
               capturedActiveIndex := 0, capturedIsPlaying := true },
      hit := none }
    (by decide) (by decide)

/-- C8: when a fetch for chunk i settles successfully and i+1 is within
the closure's chunk list, exactly one fire-and-forget resolution for
(voice, i+1) is appended to the in-flight prefetches; a prefetch that
settles successfully touches nothing but the cache (error, playing,
loading, active index, mode, chunks, sounding sources and active fetches
are all unchanged), and a prefetch that fails is swallowed entirely — it
never sets the error, and playing, loading, active index, mode, cache,
sounding and active fetches are all unchanged. -/
theorem c8_prefetch_isolation (s : AppState) (fid pid : Nat)
    (f p : PendingFetch)
    (hf : findFetch s.pending fid = some f)
    (hlt : f.index + 1 < f.env.chunks.length)
    (hp : findFetch s.pendingPrefetch pid = some p) :
    ((stepFetchOk s fid).pendingPrefetch.map
        (fun q => (q.env.selectedVoice, q.index)) =
      s.pendingPrefetch.map (fun q => (q.env.selectedVoice, q.index)) ++
        [(f.env.selectedVoice, f.index + 1)]) ∧
    ((stepPrefetchOk s pid).error = s.error ∧
      (stepPrefetchOk s pid).isPlaying = s.isPlaying ∧
      (stepPrefetchOk s pid).isLoading = s.isLoading ∧
      (stepPrefetchOk s pid).activeChunkIndex = s.activeChunkIndex ∧
      (stepPrefetchOk s pid).mode = s.mode ∧
      (stepPrefetchOk s pid).chunks = s.chunks ∧
      (stepPrefetchOk s pid).sounding = s.sounding ∧
      (stepPrefetchOk s pid).pending = s.pending) ∧
    ((stepPrefetchErr s pid).error = s.error ∧
      (stepPrefetchErr s pid).isPlaying = s.isPlaying ∧
      (stepPrefetchErr s pid).isLoading = s.isLoading ∧
      (stepPrefetchErr s pid).activeChunkIndex = s.activeChunkIndex ∧
      (stepPrefetchErr s pid).mode = s.mode ∧
      (stepPrefetchErr s pid).cache = s.cache ∧
      (stepPrefetchErr s pid).sounding = s.sounding ∧
      (stepPrefetchErr s pid).pending = s.pending) := by
  refine ⟨?_, ?_, ?_⟩
  · unfold stepFetchOk
    rw [hf]
    dsimp only
    unfold issuePrefetch
    rw [if_pos hlt]
    dsimp only
    rw [List.map_append]
    rfl
  · unfold stepPrefetchOk
    rw [hp]
    dsimp only
    cases hh : p.hit with
    | some b2 => exact ⟨rfl, rfl, rfl, rfl, rfl, rfl, rfl, rfl⟩
    | none => exact ⟨rfl, rfl, rfl, rfl, rfl, rfl, rfl, rfl⟩
  · unfold stepPrefetchErr
    rw [hp]
    dsimp only
    split
    · exact ⟨rfl, rfl, rfl, rfl, rfl, rfl, rfl, rfl⟩
    · exact ⟨rfl, rfl, rfl, rfl, rfl, rfl, rfl, rfl⟩

/-- The state in which chunk 1 is being fetched (fetch 3) while the
prefetch for chunk 1 issued during chunk 0 playback (prefetch 2) is also
still in flight. -/
def sampleMid : AppState := run initState (List.take 4 autoAdvanceTrace)

/-- Witness: c8_prefetch_isolation applied to the concrete mid-playback
state with its actual pending fetch and pending prefetch. -/
theorem c8_prefetch_isolation_witness :
    ((stepFetchOk sampleMid 3).pendingPrefetch.map
        (fun q => (q.env.selectedVoice, q.index)) =
      sampleMid.pendingPrefetch.map (fun q => (q.env.selectedVoice, q.index)) ++
        [("Puck", 1 + 1)]) ∧
    ((stepPrefetchOk sampleMid 2).error = sampleMid.error ∧
      (stepPrefetchOk sampleMid 2).isPlaying = sampleMid.isPlaying ∧
      (stepPrefetchOk sampleMid 2).isLoading = sampleMid.isLoading ∧
      (stepPrefetchOk sampleMid 2).activeChunkIndex = sampleMid.activeChunkIndex ∧
      (stepPrefetchOk sampleMid 2).mode = sampleMid.mode ∧
      (stepPrefetchOk sampleMid 2).chunks = sampleMid.chunks ∧
      (stepPrefetchOk sampleMid 2).sounding = sampleMid.sounding ∧
      (stepPrefetchOk sampleMid 2).pending = sampleMid.pending) ∧
    ((stepPrefetchErr sampleMid 2).error = sampleMid.error ∧
      (stepPrefetchErr sampleMid 2).isPlaying = sampleMid.isPlaying ∧
      (stepPrefetchErr sampleMid 2).isLoading = sampleMid.isLoading ∧
      (stepPrefetchErr sampleMid 2).activeChunkIndex = sampleMid.activeChunkIndex ∧
      (stepPrefetchErr sampleMid 2).mode = sampleMid.mode ∧
      (stepPrefetchErr sampleMid 2).cache = sampleMid.cache ∧
      (stepPrefetchErr sampleMid 2).sounding = sampleMid.sounding ∧
      (stepPrefetchErr sampleMid 2).pending = sampleMid.pending) :=
  c8_prefetch_isolation sampleMid 3 2
    { id := 3, index := 1,
      env := { chunks := ["a", "b", "c"], selectedVoice := "Puck",
               capturedActiveIndex := 0, capturedIsPlaying := true },
      hit := none }
    { id := 2, index := 1,
      env := { chunks := ["a", "b", "c"], selectedVoice := "Puck",
               capturedActiveIndex := 0, capturedIsPlaying := true },
      hit := none }
    (by decide) (by decide) (by decide)

theorem cacheGet_cons (k1 : CacheKey) (b : Buffer) (rest : Cache) (k : CacheKey) :
    cacheGet ((k1, b) :: rest) k = if k1 = k then some b else cacheGet rest k :=
  rfl

theorem cacheGet_cacheSet_self (c : Cache) (k : CacheKey) (b : Buffer) :
    cacheGet (cacheSet c k b) k = some b := by
  show cacheGet ((k, b) :: c) k = some b
  rw [cacheGet_cons, if_pos rfl]

theorem getAudioBufferSeq_preserves {c : Cache} {k : CacheKey} {b : Buffer}
    (h : cacheGet c k = some b) (v : String) (i : Nat) (ts : List String) :
    cacheGet (getAudioBufferSeq v i ts c).2.1 k = some b := by
  cases hvi : cacheGet c (v, i) with
  | some b2 =>
    have h1 : getAudioBufferSeq v i ts c = (b2, c, 0) := by
      unfold getAudioBufferSeq
      rw [hvi]
    rw [h1]
    exact h
  | none =>
    have hne : ((v, i) : CacheKey) ≠ k := by
      intro hk
      rw [← hk] at h
      rw [hvi] at h
      exact Option.noConfusion h
    have h1 : getAudioBufferSeq v i ts c =
        ({ voice := v, text := ts.getD i "" },
          cacheSet c (v, i) { voice := v, text := ts.getD i "" }, 1) := by
      unfold getAudioBufferSeq
      rw [hvi]
    rw [h1]
    show cacheGet (((v, i), { voice := v, text := ts.getD i "" }) :: c) k = some b
    rw [cacheGet_cons, if_neg hne]
    exact h

theorem resolveAll_preserves {k : CacheKey} {b : Buffer} :
    ∀ (calls : List (String × Nat × List String)) (c : Cache),
      cacheGet c k = some b → cacheGet (resolveAll calls c) k = some b := by
  intro calls
  induction calls with
  | nil => exact fun c h => h
  | cons q rest ih =>
    intro c h
    exact ih _ (getAudioBufferSeq_preserves h q.1 q.2.1 q.2.2)

theorem getAudioBufferSeq_twice (v : String) (i : Nat) (ts : List String)
    (c : Cache) :
    (getAudioBufferSeq v i ts c).2.2 ≤ 1 ∧
    getAudioBufferSeq v i ts (getAudioBufferSeq v i ts c).2.1 =
      ((getAudioBufferSeq v i ts c).1, (getAudioBufferSeq v i ts c).2.1, 0) := by
  cases hvi : cacheGet c (v, i) with
  | some b2 =>
    have h1 : getAudioBufferSeq v i ts c = (b2, c, 0) := by
      unfold getAudioBufferSeq
      rw [hvi]
    rw [h1]
    refine ⟨Nat.zero_le 1, ?_⟩
    show getAudioBufferSeq v i ts c = (b2, c, 0)
    exact h1
  | none =>
    have h1 : getAudioBufferSeq v i ts c =
        ({ voice := v, text := ts.getD i "" },
          cacheSet c (v, i) { voice := v, text := ts.getD i "" }, 1) := by
      unfold getAudioBufferSeq
      rw [hvi]
    rw [h1]
    refine ⟨Nat.le_refl 1, ?_⟩
    show getAudioBufferSeq v i ts
        (cacheSet c (v, i) { voice := v, text := ts.getD i "" }) = _
    unfold getAudioBufferSeq
    rw [cacheGet_cacheSet_self]

/-- C6: resolving the same (voice, index) twice in sequence without an
intervening invalidation performs at most one synthesis+decode call — the
first call makes at most one, and the second is served from the cache,
returning the same buffer, leaving the cache unchanged and making zero
synthesis+decode calls; moreover a cache entry, once present, is returned
unchanged by any further sequence of resolutions (only a wholesale clear,
absent here, removes it; the check-then-set of getAudioBufferForChunk
never overwrites an existing entry). -/
theorem c6_cache_idempotence (v : String) (i : Nat) (ts : List String)
    (c : Cache) (k : CacheKey) (b : Buffer)
    (calls : List (String × Nat × List String))
    (hb : cacheGet c k = some b) :
    ((getAudioBufferSeq v i ts c).2.2 ≤ 1 ∧
      getAudioBufferSeq v i ts (getAudioBufferSeq v i ts c).2.1 =
        ((getAudioBufferSeq v i ts c).1, (getAudioBufferSeq v i ts c).2.1, 0)) ∧
    cacheGet (resolveAll calls c) k = some b :=
  ⟨getAudioBufferSeq_twice v i ts c, resolveAll_preserves calls c hb⟩

/-- Witness: c6_cache_idempotence at a concrete cache holding an entry
for (Puck, 1), a concrete resolution of (Puck, 0), and a concrete list of
later resolutions. -/
theorem c6_cache_idempotence_witness :
    ((getAudioBufferSeq "Puck" 0 ["a"]
        [(("Puck", 1), { voice := "Puck", text := "b" })]).2.2 ≤ 1 ∧
      getAudioBufferSeq "Puck" 0 ["a"]
          (getAudioBufferSeq "Puck" 0 ["a"]
            [(("Puck", 1), { voice := "Puck", text := "b" })]).2.1 =
        ((getAudioBufferSeq "Puck" 0 ["a"]
            [(("Puck", 1), { voice := "Puck", text := "b" })]).1,
          (getAudioBufferSeq "Puck" 0 ["a"]
            [(("Puck", 1), { voice := "Puck", text := "b" })]).2.1, 0)) ∧
    cacheGet
        (resolveAll [("Puck", 0, ["a"]), ("Kore", 0, ["a"])]
          [(("Puck", 1), { voice := "Puck", text := "b" })])
        ("Puck", 1) =
      some { voice := "Puck", text := "b" } :=
  c6_cache_idempotence "Puck" 0 ["a"]
    [(("Puck", 1), { voice := "Puck", text := "b" })]
    ("Puck", 1) { voice := "Puck", text := "b" }
    [("Puck", 0, ["a"]), ("Kore", 0, ["a"])]
    (by decide)

end Book
